import Mathlib

/-!
Shallow embedding of the go-harvest client library (package `harvest`),
verified against the specification's claims.

The embedding models the two source files of the package
(`harvest.go` and `time_entries.go`) as pure Lean functions.
External collaborators (the Go standard library's `net/http` transport,
`net/url` parsing, `encoding/json`, and the `go-querystring` encoder) are
modelled at the granularity the package uses them:

* HTTP bodies are represented as already-parsed JSON values (`Body`),
  distinguishing an empty body, a malformed body and a well-formed one, which
  is exactly the distinction `encoding/json` reports back to the package
  (io.EOF, a syntax error, or a decoded value).
* The network transport `c.client.Do(req)` is a parameter
  (`HttpRequest → Except GoError HttpResponse`), since the package treats it
  as a black box producing either a transport error or a response.
* `url.Parse(defaultBaseURL)` is embedded as its concrete result
  (scheme/host/path components of the constant URL string).
* Go `int` fields are modelled as `Int`; the single `float64` field
  (`TimeEntry.Hours`) is modelled as `Int` since no claim depends on
  fractional values.
-/

namespace harvest

/-- A JSON value, the result of parsing a JSON document. -/
inductive Json where
  | null
  | bool (b : Bool)
  | num (n : Int)
  | str (s : String)
  | arr (xs : List Json)
  | obj (fields : List (String × Json))

/-- An HTTP message body as `encoding/json` sees it: no bytes at all,
bytes that are not valid JSON, or a parsed JSON value. -/
inductive Body where
  | empty
  | malformed
  | json (j : Json)

/-- Minimal model of `net/url.URL`: the components the package reads
(`Path`) and writes (`RawQuery`), plus scheme and host so the URL can be
rendered back to a string. -/
structure URL where
  scheme : String
  host : String
  path : String
  query : String

/-- Model of `(*url.URL).String()` for the URLs the package builds. -/
def URL.render (u : URL) : String :=
  u.scheme ++ "://" ++ u.host ++ u.path ++ (if u.query = "" then "" else "?" ++ u.query)

instance : ToString URL := ⟨URL.render⟩

/-- Drop everything after the last slash of a path (keeping the slash),
the directory part used when resolving a relative reference. -/
def dirPart (p : String) : String :=
  String.mk ((p.toList.reverse.dropWhile (· ≠ '/')).reverse)

/-- Model of `base.Parse(ref)` for the relative references the package
builds (a path, optionally followed by `?` and a query, with no scheme,
host, leading slash or dot segments). -/
def URL.resolveReference (base : URL) (ref : String) : URL :=
  let parts := ref.splitOn "?"
  let p := parts.headD ""
  let q := String.intercalate "?" (parts.drop 1)
  { base with path := dirPart base.path ++ p, query := q }

/-- harvest.go line 20: `defaultBaseURL = "https://api.harvestapp.com/"`. -/
def defaultBaseURL : String := "https://api.harvestapp.com/"

/-- harvest.go line 21: `defaultApiVersion = "v2/"`. -/
def defaultApiVersion : String := "v2/"

/-- harvest.go line 22: `userAgent = "go-harvest"`. -/
def userAgent : String := "go-harvest"

/-- The concrete result of `url.Parse(defaultBaseURL)` in `NewClient`
(harvest.go line 83): scheme `https`, host `api.harvestapp.com`, path `/`. -/
def parsedDefaultBaseURL : URL :=
  { scheme := "https", host := "api.harvestapp.com", path := "/", query := "" }

/-- harvest.go lines 25-42: the API client's configuration fields.
The `common`/`TimeEntries` service pointers are modelled by constructing a
`TimeEntriesService` from the client where needed. -/
structure Client where
  BaseURL : URL
  AccessToken : String
  AccountId : String
  UserAgent : String

/-- harvest.go lines 80-89: `NewClient` builds a client with the parsed
default base URL, the given credentials, and the default user agent. -/
def NewClient (accessToken : String) (accountId : String) : Client :=
  { BaseURL := parsedDefaultBaseURL
    AccessToken := accessToken
    AccountId := accountId
    UserAgent := userAgent }

/-- An outgoing HTTP request as `NewRequest` builds it. -/
structure HttpRequest where
  method : String
  url : String
  headers : List (String × String)
  body : Option Json

/-- A received HTTP response: the fields the package reads
(`StatusCode`, `Body`, and the originating `Request`). -/
structure HttpResponse where
  statusCode : Nat
  body : Body
  request : HttpRequest

/-- harvest.go lines 48-56: pagination options; both fields carry
`url:"...,omitempty"` tags. -/
structure ListOptions where
  Page : Int
  PerPage : Int

/-- time_entries.go: options of `TimeEntriesService.List`; `From` and `To`
carry `url:"...,omitempty"` tags and `ListOptions` is embedded. -/
structure TimeEntriesListOptions where
  From : String
  To : String
  listOptions : ListOptions

/-- Model of `go-querystring`'s `query.Values`: one key/value pair per
struct field in declaration order, a field with an `omitempty` tag being
dropped at its zero value. The class stands in for the reflection over
`interface{}`. -/
class QueryValues (α : Type) where
  queryValues : α → List (String × String)

instance : QueryValues ListOptions where
  queryValues o :=
    (if o.Page = 0 then [] else [("page", toString o.Page)]) ++
    (if o.PerPage = 0 then [] else [("per_page", toString o.PerPage)])

instance : QueryValues TimeEntriesListOptions where
  queryValues o :=
    (if o.From = "" then [] else [("from", o.From)]) ++
    (if o.To = "" then [] else [("to", o.To)]) ++
    QueryValues.queryValues o.listOptions

/-- Hexadecimal digit of a number below 16, upper case as Go's
`url.QueryEscape` produces. -/
def hexDigit (n : Nat) : Char :=
  if n < 10 then Char.ofNat (48 + n) else Char.ofNat (55 + n)

/-- Is the character kept verbatim by Go's `url.QueryEscape`? -/
def isUnreserved (c : Char) : Bool :=
  (97 ≤ c.toNat && c.toNat ≤ 122) || (65 ≤ c.toNat && c.toNat ≤ 90) ||
  (48 ≤ c.toNat && c.toNat ≤ 57) ||
  c = '-' || c = '_' || c = '.' || c = '~'

/-- Model of `url.QueryEscape` on ASCII text (the only text the package
puts in queries): unreserved characters kept, space becomes `+`, anything
else percent-encoded. -/
def queryEscape (s : String) : String :=
  String.join (s.toList.map (fun c =>
    if isUnreserved c then String.mk [c]
    else if c = ' ' then "+"
    else String.mk ['%', hexDigit (c.toNat / 16 % 16), hexDigit (c.toNat % 16)]))

/-- Insert a pair into a key-sorted association list. -/
def insertByKey (p : String × String) : List (String × String) → List (String × String)
  | [] => [p]
  | q :: qs => if p.1 ≤ q.1 then p :: q :: qs else q :: insertByKey p qs

/-- Sort an association list by key, as `url.Values.Encode` does. -/
def sortByKey : List (String × String) → List (String × String)
  | [] => []
  | p :: ps => insertByKey p (sortByKey ps)

/-- Model of `url.Values.Encode`: keys sorted, each pair rendered
`key=value` with both sides query-escaped, pairs joined by `&`. -/
def encodeValues (vs : List (String × String)) : String :=
  String.intercalate "&" ((sortByKey vs).map (fun p => queryEscape p.1 ++ "=" ++ queryEscape p.2))

/-- harvest.go lines 60-78: `addOptions` returns `s` unchanged for a nil
options pointer; otherwise it parses `s`, replaces its `RawQuery` with the
encoded query values and renders the URL back. For the relative URLs the
package passes (a bare path with no query), that is `s` itself when the
encoded query is empty and `s ++ "?" ++ query` otherwise. -/
def addOptions {α : Type} [QueryValues α] (s : String) (opts : Option α) : String :=
  match opts with
  | none => s
  | some o =>
      let qs := encodeValues (QueryValues.queryValues o)
      if qs = "" then s else s ++ "?" ++ qs

/-- Model of Go's `strings.HasSuffix`: does `s` end with `post`? (Defined
structurally over the character lists so it evaluates by kernel
reduction.) -/
def strHasSuffix (s post : String) : Bool :=
  decide (post.toList = s.toList.drop (s.toList.length - post.toList.length))

/-- The one failure `NewRequest` can hit in this model: the trailing-slash
configuration check (harvest.go lines 92-94). URL resolution and JSON
encoding of the body are total on the model's inputs. -/
inductive ReqError where
  | badBaseURL (url : String)

/-- harvest.go lines 91-127: `NewRequest` first checks that the base URL
path ends in a slash, then resolves `defaultApiVersion + urlStr` against
the base URL, serializes the optional body, and sets the content-type,
authorization, account-id and user-agent headers. -/
def Client.NewRequest (c : Client) (method : String) (urlStr : String)
    (body : Option Json) : Except ReqError HttpRequest :=
  if ¬ strHasSuffix c.BaseURL.path "/" then
    .error (.badBaseURL (URL.render c.BaseURL))
  else
    let u := c.BaseURL.resolveReference (defaultApiVersion ++ urlStr)
    let headers :=
      (if body.isSome then [("Content-Type", "application/json")] else []) ++
      [("Authorization", "Bearer " ++ c.AccessToken),
       ("Harvest-Account-Id", c.AccountId)] ++
      (if c.UserAgent ≠ "" then [("User-Agent", c.UserAgent)] else [])
    .ok { method := method, url := URL.render u, headers := headers, body := body }

/-- harvest.go lines 218-222: the error envelope; `ErrorCode` and
`ErrorDescription` come from the JSON keys `error` and `error_description`,
and `Response` is the HTTP response that caused the error. -/
structure ErrorResponse where
  Response : HttpResponse
  ErrorCode : String
  ErrorDescription : String

/-- harvest.go line 230: `type AuthError ErrorResponse` — same fields,
distinct type. -/
abbrev AuthError := ErrorResponse

/-- harvest.go lines 189-191: `sanitizeURL` returns its argument
unchanged. -/
def sanitizeURL (uri : String) : String := uri

/-- harvest.go lines 224-228: the generic error message
`"%v %v: %d %v %v"` of method, sanitized URL, status code, error code and
error description. -/
def ErrorResponse.Error (r : ErrorResponse) : String :=
  r.Response.request.method ++ " " ++ sanitizeURL r.Response.request.url ++ ": " ++
    toString r.Response.statusCode ++ " " ++ r.ErrorCode ++ " " ++ r.ErrorDescription

/-- harvest.go lines 232-235: the authentication error message
`"%v %v"` of error code and error description only. -/
def AuthError.Error (a : AuthError) : String :=
  a.ErrorCode ++ " " ++ a.ErrorDescription

/-- The two error types `CheckResponse` can return, tagged by which Go
type the value is converted to. -/
inductive HarvestError where
  | generic (e : ErrorResponse)
  | auth (e : AuthError)

/-- The `error.Error()` message of a `HarvestError`. -/
def HarvestError.message : HarvestError → String
  | .generic e => e.Error
  | .auth e => e.Error

/-- Model of `json.Unmarshal(data, errorResponse)` in `CheckResponse`
(harvest.go line 206): on a JSON object, the string at key `error` is
written to `ErrorCode` and the string at key `error_description` to
`ErrorDescription`; any unmarshal failure (empty or malformed data,
non-object value, non-string field) is silently tolerated, leaving the
affected fields unchanged. -/
def unmarshalErrorFields (b : Body) (e : ErrorResponse) : ErrorResponse :=
  match b with
  | .json (.obj fs) =>
      { e with
        ErrorCode := match fs.lookup "error" with
          | some (.str s) => s
          | _ => e.ErrorCode
        ErrorDescription := match fs.lookup "error_description" with
          | some (.str s) => s
          | _ => e.ErrorDescription }
  | _ => e

/-- harvest.go lines 198-215: `CheckResponse` returns no error exactly when
`200 <= c && c <= 299`; otherwise it unmarshals the buffered body into the
error envelope and returns an `AuthError` for status 401
(`http.StatusUnauthorized`) and the generic `ErrorResponse` for every other
status. (The body buffering and replacement on `r.Body` restores the same
bytes and is not modelled.) -/
def CheckResponse (r : HttpResponse) : Option HarvestError :=
  if 200 ≤ r.statusCode ∧ r.statusCode ≤ 299 then
    none
  else
    let errorResponse := unmarshalErrorFields r.body
      { Response := r, ErrorCode := "", ErrorDescription := "" }
    if r.statusCode = 401 then
      some (.auth errorResponse)
    else
      some (.generic errorResponse)

/-- Smallest value of Go's 64-bit `int`, -2^63. -/
def goIntMin : Int := -9223372036854775808

/-- Largest value of Go's 64-bit `int`, 2^63 - 1. -/
def goIntMax : Int := 9223372036854775807

/-- Wrap an unbounded integer into Go's two's-complement 64-bit `int`
range, the semantics of Go's `int` addition and subtraction (`int` is 64
bits wide on the platforms this library targets). -/
def wrap64 (n : Int) : Int :=
  (n + 9223372036854775808) % 18446744073709551616 - 9223372036854775808

/-- harvest.go lines 237-244: the pagination envelope returned by list
endpoints. Each field is a Go `int`, i.e. a 64-bit two's-complement value
in `[goIntMin, goIntMax]`; arithmetic on them wraps via `wrap64`. -/
structure Pagination where
  PerPage : Int
  TotalPages : Int
  TotalEntries : Int
  NextPage : Int
  PreviousPage : Int
  Page : Int

/-- The all-zero Go value of `Pagination`. -/
def Pagination.zero : Pagination := ⟨0, 0, 0, 0, 0, 0⟩

/-- harvest.go lines 249-255: the response wrapper decorating the HTTP
response with computed page numbers. The embedded `*http.Response` field is
named `httpResponse` here to avoid a name clash with the structure. -/
structure Response where
  httpResponse : HttpResponse
  NextPage : Int
  PreviousPage : Int
  FirstPage : Int
  LastPage : Int

/-- harvest.go lines 259-261: `newResponse` wraps the HTTP response; the
page fields start at the Go zero value 0. -/
def newResponse (r : HttpResponse) : Response :=
  { httpResponse := r, NextPage := 0, PreviousPage := 0, FirstPage := 0, LastPage := 0 }

/-- harvest.go lines 265-278: `populatePageValues` sets first page 1, last
page the total, next page current+1 clamped down to the last page, and
previous page current-1 clamped up to the first page. The `+1` and `-1`
are Go `int` arithmetic, so they wrap at the 64-bit boundary. -/
def Response.populatePageValues (r : Response) (pagination : Pagination) : Response :=
  let firstPage : Int := 1
  let lastPage := pagination.TotalPages
  let nextPage := wrap64 (pagination.Page + 1)
  let nextPage := if nextPage > lastPage then lastPage else nextPage
  let previousPage := wrap64 (pagination.Page - 1)
  let previousPage := if previousPage < firstPage then firstPage else previousPage
  { r with FirstPage := firstPage, LastPage := lastPage,
           NextPage := nextPage, PreviousPage := previousPage }

/-- Errors of the Go standard library surfaced to the package: the context
errors and transport failures. -/
inductive GoError where
  | contextCanceled
  | deadlineExceeded
  | transportFailure (msg : String)

/-- Model of `context.Context` as `Do` consumes it: whether `ctx.Done()`
is already closed, and the error `ctx.Err()` reports once it is
(`Canceled` or `DeadlineExceeded`). -/
structure Ctx where
  done : Bool
  doneErr : GoError

/-- Model of `ctx.Err()`: non-nil exactly when the context is done. -/
def Ctx.err (c : Ctx) : Option GoError :=
  if c.done then some c.doneErr else none

/-- The errors `Do` can return, tagged by origin. -/
inductive DoErr where
  | ctxNil
  | ctxError (e : GoError)
  | transport (e : GoError)
  | api (e : HarvestError)
  | decodeFailure

/-- The destination argument `v` of `Do`: nil, an `io.Writer`, or a typed
destination together with the `encoding/json` decoding into its type. -/
inductive Dest (α : Type) where
  | nil
  | writer
  | typed (dec : Json → Except String α)

/-- The outcome of `Do`: the returned response wrapper and error, and the
final contents of the destination (`none` meaning it was left at its zero
value). -/
structure DoResult (α : Type) where
  response : Option Response
  err : Option DoErr
  val : Option α

/-- harvest.go lines 137-187: `Do` rejects a nil context, runs the
transport, and on transport failure returns `ctx.Err()` when the context is
already done and the (sanitized, `sanitizeURL` being the identity)
transport error otherwise. On a transport success it wraps the response,
consults `CheckResponse` — returning the wrapper together with the API
error on failure — and then decodes the body into `v`: an `io.Writer`
receives the raw bytes, a typed destination is JSON-decoded with `io.EOF`
from an empty body ignored, and any other decode failure is returned as the
error. Note the context is never attached to the request, so it is
consulted only after a transport failure. -/
def Client.Do {α : Type} (c : Client) (ctx : Option Ctx)
    (transport : HttpRequest → Except GoError HttpResponse)
    (req : HttpRequest) (v : Dest α) : DoResult α :=
  match ctx with
  | none => ⟨none, some .ctxNil, none⟩
  | some ctx =>
    match transport req with
    | .error e =>
        if ctx.done then ⟨none, some (.ctxError ctx.doneErr), none⟩
        else ⟨none, some (.transport e), none⟩
    | .ok resp =>
        let response := newResponse resp
        match CheckResponse resp with
        | some apiErr => ⟨some response, some (.api apiErr), none⟩
        | none =>
            match v with
            | .nil => ⟨some response, none, none⟩
            | .writer => ⟨some response, none, none⟩
            | .typed dec =>
                match resp.body with
                | .empty => ⟨some response, none, none⟩
                | .malformed => ⟨some response, some .decodeFailure, none⟩
                | .json j =>
                    match dec j with
                    | .ok a => ⟨some response, none, some a⟩
                    | .error _ => ⟨some response, some .decodeFailure, none⟩

/-- time_entries.go: `Project` with JSON keys `id` and `name`. -/
structure Project where
  Id : Int
  Name : String

/-- time_entries.go: `User` with JSON keys `id` and `name`. -/
structure User where
  Id : Int
  Name : String

/-- time_entries.go: `Task` with JSON keys `id` and `name`. -/
structure Task where
  Id : Int
  Name : String

/-- time_entries.go: a time entry record; `Hours` is `float64` in Go,
modelled as `Int` since no claim depends on fractional values. -/
structure TimeEntry where
  Id : Int
  Hours : Int
  Notes : String
  Project : Project
  User : User
  Task : Task
  SpentDate : String

/-- Read an integer field of a JSON object, keeping the default when the
key is absent and failing on a non-number value, as `encoding/json` does
for an `int` target. -/
def decodeIntField (fs : List (String × Json)) (k : String) (d : Int) : Except String Int :=
  match fs.lookup k with
  | none => .ok d
  | some (.num n) => .ok n
  | some _ => .error ("cannot unmarshal into int field " ++ k)

/-- Read a string field of a JSON object, keeping the default when the key
is absent and failing on a non-string value. -/
def decodeStrField (fs : List (String × Json)) (k : String) (d : String) : Except String String :=
  match fs.lookup k with
  | none => .ok d
  | some (.str s) => .ok s
  | some _ => .error ("cannot unmarshal into string field " ++ k)

/-- Decode an id/name pair, the shape shared by `Project`, `User` and
`Task`. -/
def decodeIdName (j : Json) : Except String (Int × String) :=
  match j with
  | .obj fs => do
      let i ← decodeIntField fs "id" 0
      let n ← decodeStrField fs "name" ""
      .ok (i, n)
  | .null => .ok (0, "")
  | _ => .error "cannot unmarshal into struct"

/-- Model of `encoding/json` decoding into a `TimeEntry`. -/
def decodeTimeEntry (j : Json) : Except String TimeEntry :=
  match j with
  | .obj fs => do
      let i ← decodeIntField fs "id" 0
      let hours ← decodeIntField fs "hours" 0
      let notes ← decodeStrField fs "notes" ""
      let project ← (fs.lookup "project").elim (.ok (0, "")) decodeIdName
      let user ← (fs.lookup "user").elim (.ok (0, "")) decodeIdName
      let task ← (fs.lookup "task").elim (.ok (0, "")) decodeIdName
      let spentDate ← decodeStrField fs "spent_date" ""
      .ok ⟨i, hours, notes, ⟨project.1, project.2⟩, ⟨user.1, user.2⟩,
           ⟨task.1, task.2⟩, spentDate⟩
  | .null => .ok ⟨0, 0, "", ⟨0, ""⟩, ⟨0, ""⟩, ⟨0, ""⟩, ""⟩
  | _ => .error "cannot unmarshal into struct"

/-- Model of `encoding/json` decoding into the embedded `Pagination`
(promoted fields, so its keys sit at the top level of the page object). -/
def decodePagination (fs : List (String × Json)) : Except String Pagination := do
  let perPage ← decodeIntField fs "per_page" 0
  let totalPages ← decodeIntField fs "total_pages" 0
  let totalEntries ← decodeIntField fs "total_entries" 0
  let nextPage ← decodeIntField fs "next_page" 0
  let previousPage ← decodeIntField fs "previous_page" 0
  let page ← decodeIntField fs "page" 0
  .ok ⟨perPage, totalPages, totalEntries, nextPage, previousPage, page⟩

/-- time_entries.go lines 26-29 of `List`: the local `Page` type, an
embedded `Pagination` plus the `time_entries` array. -/
structure Page where
  pagination : Pagination
  timeEntries : List TimeEntry

/-- Model of `encoding/json` decoding into a `Page`. -/
def decodePage (j : Json) : Except String Page :=
  match j with
  | .obj fs => do
      let pagination ← decodePagination fs
      let entries ← match fs.lookup "time_entries" with
        | none => Except.ok []
        | some (.arr xs) => xs.mapM decodeTimeEntry
        | some .null => Except.ok []
        | some _ => Except.error "cannot unmarshal into slice"
      .ok ⟨pagination, entries⟩
  | .null => .ok ⟨Pagination.zero, []⟩
  | _ => .error "cannot unmarshal into struct"

/-- time_entries.go: `TimeEntriesService` holds the client
(`type TimeEntriesService service`). -/
structure TimeEntriesService where
  client : Client

/-- The errors `TimeEntriesService.List` can return: a request-construction
error or an error from `Do` (the model's `addOptions` is total). -/
inductive ListErr where
  | req (e : ReqError)
  | fromDo (e : DoErr)

/-- The outcome of `TimeEntriesService.List`, modelling its Go return
triple `([]*TimeEntry, *Response, error)`; `entries = none` models the nil
slice returned on the error paths. -/
structure ListResult where
  entries : Option (List TimeEntry)
  resp : Option Response
  err : Option ListErr

/-- time_entries.go lines 43-69: `List` builds the query string with
`addOptions`, builds a GET request for `time_entries`, dispatches it via
`Do` decoding into a `Page`, propagates the response wrapper together with
any error from `Do`, and on success populates the page values on the
wrapper and returns the decoded entries. -/
def TimeEntriesService.List (t : TimeEntriesService)
    (transport : HttpRequest → Except GoError HttpResponse)
    (ctx : Option Ctx) (opts : Option TimeEntriesListOptions) : ListResult :=
  let u := addOptions "time_entries" opts
  match t.client.NewRequest "GET" u none with
  | .error e => ⟨none, none, some (.req e)⟩
  | .ok req =>
      let r := t.client.Do ctx transport req (Dest.typed decodePage)
      match r.err with
      | some e => ⟨none, r.response, some (.fromDo e)⟩
      | none =>
          let page := r.val.getD ⟨Pagination.zero, []⟩
          ⟨some page.timeEntries,
           r.response.map (fun resp => resp.populatePageValues page.pagination),
           none⟩


/-- The proposition that `s` contains `sub` as a contiguous substring. -/
def strContains (s sub : String) : Prop :=
  ∃ pre post : String, s = pre ++ sub ++ post

/-- A sample outgoing request used as a concrete test fixture. -/
def sampleRequest : HttpRequest :=
  ⟨"GET", "https://api.harvestapp.com/v2/time_entries", [], none⟩

/-- A sample error body in the server's error envelope shape. -/
def sampleErrorBody : Body :=
  .json (.obj [("error", .str "invalid_grant"), ("error_description", .str "The token is invalid")])

/-- A sample 404 response carrying the error envelope. -/
def resp404 : HttpResponse := ⟨404, sampleErrorBody, sampleRequest⟩

/-- A sample plain 200 response with an empty body. -/
def resp200 : HttpResponse := ⟨200, .empty, sampleRequest⟩

theorem strContains_parts (pre sub post s : String) (h : s = pre ++ (sub ++ post)) :
    strContains s sub :=
  ⟨pre, post, h.trans (String.append_assoc pre sub post).symm⟩

theorem newRequest_ofNewClient_isOk (tok acc method urlStr : String) (body : Option Json) :
    ∃ req, (NewClient tok acc).NewRequest method urlStr body = .ok req :=
  ⟨_, rfl⟩

theorem do_api_error (c : Client) (ctx : Ctx) {α : Type} (v : Dest α) (req : HttpRequest)
    (resp : HttpResponse) (e : HarvestError) (h : CheckResponse resp = some e) :
    Client.Do c (some ctx) (fun _ => .ok resp) req v =
      ⟨some (newResponse resp), some (.api e), none⟩ := by
  simp [Client.Do, h]

/-- C1: behaviour of the code at the failing input. `CheckResponse` applied
to a 202 Accepted response returns no error, because its only status test
is `200 <= c && c <= 299`; the claim (and the function's own documentation)
says 202 must be treated as an error. -/
theorem checkResponse_202_is_success :
    CheckResponse ⟨202, .empty, sampleRequest⟩ = none := rfl

/-- C2: behaviour of the code at the failing input. With a context already
cancelled before dispatch (`ctx.Err()` non-nil) and a transport call that
succeeds — possible because `Do` never attaches the context to the request
and consults it only after a transport failure — `Do` returns the response
with no error instead of the context's cancellation error. -/
theorem do_cancelled_ctx_can_succeed :
    Ctx.err ⟨true, .contextCanceled⟩ = some GoError.contextCanceled ∧
    Client.Do (NewClient "token" "account") (some ⟨true, .contextCanceled⟩)
        (fun _ => .ok resp200) sampleRequest (Dest.nil (α := Page)) =
      ⟨some (newResponse resp200), none, none⟩ :=
  ⟨rfl, rfl⟩

/-- C3 counterexample: at the envelope with Page = TotalPages = 2^63 - 1
(in the claim's domain 1 ≤ p ≤ t), Go's `Page + 1` wraps to -2^63, the
`NextPage > LastPage` clamp does not fire, and the computed NextPage is
-2^63, not min (p+1) t. -/
theorem populatePageValues_overflow_counterexample :
    1 ≤ (Pagination.mk 10 9223372036854775807 0 0 0 9223372036854775807).Page ∧
    (Pagination.mk 10 9223372036854775807 0 0 0 9223372036854775807).Page ≤
      (Pagination.mk 10 9223372036854775807 0 0 0 9223372036854775807).TotalPages ∧
    ((newResponse resp200).populatePageValues
        (Pagination.mk 10 9223372036854775807 0 0 0 9223372036854775807)).NextPage =
      -9223372036854775808 ∧
    ((newResponse resp200).populatePageValues
        (Pagination.mk 10 9223372036854775807 0 0 0 9223372036854775807)).NextPage ≠
      min ((Pagination.mk 10 9223372036854775807 0 0 0 9223372036854775807).Page + 1)
        (Pagination.mk 10 9223372036854775807 0 0 0 9223372036854775807).TotalPages :=
  ⟨by decide, by decide, by decide, by decide⟩

/-- C3 (amended): for a pagination envelope of Go ints with current page p
and total pages t, 1 ≤ p ≤ t ≤ goIntMax and p < goIntMax (so p+1 does not
overflow), `populatePageValues` sets FirstPage = 1, LastPage = t,
NextPage = min (p+1) t and PreviousPage = max (p-1) 1 on the wrapper. -/
theorem populatePageValues_pages (r : Response) (pg : Pagination)
    (h1 : 1 ≤ pg.Page) (h2 : pg.Page ≤ pg.TotalPages)
    (ht : pg.TotalPages ≤ goIntMax) (hp : pg.Page < goIntMax) :
    (r.populatePageValues pg).FirstPage = 1 ∧
    (r.populatePageValues pg).LastPage = pg.TotalPages ∧
    (r.populatePageValues pg).NextPage = min (pg.Page + 1) pg.TotalPages ∧
    (r.populatePageValues pg).PreviousPage = max (pg.Page - 1) 1 := by
  simp only [Response.populatePageValues, wrap64]
  simp only [goIntMax] at ht hp
  refine ⟨trivial, trivial, ?_, ?_⟩ <;> split <;> omega

/-- Witness for C3 at page 2 of 5. -/
theorem populatePageValues_pages_witness :
    1 ≤ (Pagination.mk 10 5 50 0 0 2).Page ∧
    (Pagination.mk 10 5 50 0 0 2).Page ≤ (Pagination.mk 10 5 50 0 0 2).TotalPages ∧
    (Pagination.mk 10 5 50 0 0 2).TotalPages ≤ goIntMax ∧
    (Pagination.mk 10 5 50 0 0 2).Page < goIntMax ∧
    (((newResponse resp200).populatePageValues (Pagination.mk 10 5 50 0 0 2)).FirstPage = 1 ∧
     ((newResponse resp200).populatePageValues (Pagination.mk 10 5 50 0 0 2)).LastPage =
       (Pagination.mk 10 5 50 0 0 2).TotalPages ∧
     ((newResponse resp200).populatePageValues (Pagination.mk 10 5 50 0 0 2)).NextPage =
       min ((Pagination.mk 10 5 50 0 0 2).Page + 1) (Pagination.mk 10 5 50 0 0 2).TotalPages ∧
     ((newResponse resp200).populatePageValues (Pagination.mk 10 5 50 0 0 2)).PreviousPage =
       max ((Pagination.mk 10 5 50 0 0 2).Page - 1) 1) :=
  ⟨by decide, by decide, by decide, by decide,
   populatePageValues_pages (newResponse resp200) (Pagination.mk 10 5 50 0 0 2)
     (by decide) (by decide) (by decide) (by decide)⟩

/-- C4: `addOptions` on an all-zero options value (either options type)
leaves the URL without a query string, and with only Page = 2 set produces
exactly the query `page=2`. -/
theorem addOptions_zero_and_page2 :
    addOptions "time_entries" (some (ListOptions.mk 0 0)) = "time_entries" ∧
    addOptions "time_entries" (some (TimeEntriesListOptions.mk "" "" (ListOptions.mk 0 0))) =
      "time_entries" ∧
    addOptions "time_entries" (some (ListOptions.mk 2 0)) = "time_entries?page=2" ∧
    addOptions "time_entries" (some (TimeEntriesListOptions.mk "" "" (ListOptions.mk 2 0))) =
      "time_entries?page=2" :=
  ⟨rfl, rfl, rfl, rfl⟩

/-- C5: a 401 response whose body is the JSON object
`{"error":"x","error_description":"y"}` yields an `AuthError` whose message
is exactly `x ++ " " ++ y`, with no method, URL or status code in it. -/
theorem checkResponse_401_auth_message (x y : String) (req : HttpRequest) :
    ∃ er : AuthError,
      CheckResponse ⟨401, .json (.obj [("error", .str x), ("error_description", .str y)]), req⟩ =
        some (HarvestError.auth er) ∧
      AuthError.Error er = x ++ " " ++ y :=
  ⟨_, rfl, rfl⟩

/-- C6: a non-401 response with a status outside [200,299] yields the
generic `ErrorResponse`, whose message contains the request method, the
request URL, the decimal status code, and the server-supplied error code
and description. -/
theorem checkResponse_non401_generic_message (method url : String) (c : Nat) (x y : String)
    (hc : c < 200 ∨ 299 < c) (h401 : c ≠ 401) :
    ∃ er : ErrorResponse,
      CheckResponse ⟨c, .json (.obj [("error", .str x), ("error_description", .str y)]),
          ⟨method, url, [], none⟩⟩ = some (HarvestError.generic er) ∧
      ErrorResponse.Error er =
        method ++ " " ++ url ++ ": " ++ toString c ++ " " ++ x ++ " " ++ y ∧
      strContains er.Error method ∧
      strContains er.Error url ∧
      strContains er.Error (toString c) ∧
      strContains er.Error x ∧
      strContains er.Error y := by
  have hif : ¬ (200 ≤ c ∧ c ≤ 299) := by omega
  refine ⟨⟨⟨c, .json (.obj [("error", .str x), ("error_description", .str y)]),
          ⟨method, url, [], none⟩⟩, x, y⟩, ?_, rfl, ?_, ?_, ?_, ?_, ?_⟩
  · simp only [CheckResponse, hif, if_false, if_neg h401, unmarshalErrorFields]
    rfl
  · exact strContains_parts "" method
      (" " ++ (url ++ (": " ++ (toString c ++ (" " ++ (x ++ (" " ++ y))))))) _
      (by simp [ErrorResponse.Error, sanitizeURL, String.append_assoc])
  · exact strContains_parts (method ++ " ") url
      (": " ++ (toString c ++ (" " ++ (x ++ (" " ++ y))))) _
      (by simp [ErrorResponse.Error, sanitizeURL, String.append_assoc])
  · exact strContains_parts (method ++ (" " ++ (url ++ ": "))) (toString c)
      (" " ++ (x ++ (" " ++ y))) _
      (by simp [ErrorResponse.Error, sanitizeURL, String.append_assoc])
  · exact strContains_parts (method ++ (" " ++ (url ++ (": " ++ (toString c ++ " "))))) x
      (" " ++ y) _
      (by simp [ErrorResponse.Error, sanitizeURL, String.append_assoc])
  · exact strContains_parts
      (method ++ (" " ++ (url ++ (": " ++ (toString c ++ (" " ++ (x ++ " "))))))) y "" _
      (by simp [ErrorResponse.Error, sanitizeURL, String.append_assoc])

/-- Witness for C6 at a concrete 404 response. -/
theorem checkResponse_non401_generic_message_witness :
    ((404 : Nat) < 200 ∨ 299 < (404 : Nat)) ∧ (404 : Nat) ≠ 401 ∧
    (∃ er : ErrorResponse,
      CheckResponse ⟨404, .json (.obj [("error", .str "not_found"),
          ("error_description", .str "Resource gone")]),
          ⟨"GET", "https://api.harvestapp.com/v2/time_entries", [], none⟩⟩ =
        some (HarvestError.generic er) ∧
      ErrorResponse.Error er =
        "GET" ++ " " ++ "https://api.harvestapp.com/v2/time_entries" ++ ": " ++
          toString (404 : Nat) ++ " " ++ "not_found" ++ " " ++ "Resource gone" ∧
      strContains er.Error "GET" ∧
      strContains er.Error "https://api.harvestapp.com/v2/time_entries" ∧
      strContains er.Error (toString (404 : Nat)) ∧
      strContains er.Error "not_found" ∧
      strContains er.Error "Resource gone") :=
  ⟨by decide, by decide,
   checkResponse_non401_generic_message "GET" "https://api.harvestapp.com/v2/time_entries"
     404 "not_found" "Resource gone" (by decide) (by decide)⟩

/-- C7: a 200 response with an empty body and a non-nil, non-io.Writer
destination makes `Do` return no error and leaves the destination at its
zero value (the io.EOF decode failure on an empty body is discarded). -/
theorem do_empty_body_success {α : Type} (c : Client) (ctx : Ctx) (req : HttpRequest)
    (dec : Json → Except String α) :
    Client.Do c (some ctx) (fun _ => .ok ⟨200, .empty, req⟩) req (Dest.typed dec) =
      ⟨some (newResponse ⟨200, .empty, req⟩), none, none⟩ := rfl

/-- C8: on a client whose base URL path has no trailing slash, `NewRequest`
fails with the configuration error on every call, whatever the method,
relative URL or body — the error mentions only the base URL, showing the
check precedes URL joining and body serialization. -/
theorem newRequest_no_trailing_slash_fails (c : Client) (method urlStr : String)
    (body : Option Json) (h : strHasSuffix c.BaseURL.path "/" = false) :
    c.NewRequest method urlStr body = .error (.badBaseURL (URL.render c.BaseURL)) := by
  simp [Client.NewRequest, h]

/-- Witness for C8: a client whose base URL path is empty (as for
`url.Parse("https://api.harvestapp.com")`). -/
theorem newRequest_no_trailing_slash_fails_witness :
    strHasSuffix (Client.mk ⟨"https", "api.harvestapp.com", "", ""⟩ "t" "a" "go-harvest").BaseURL.path "/" = false ∧
    Client.NewRequest (Client.mk ⟨"https", "api.harvestapp.com", "", ""⟩ "t" "a" "go-harvest")
        "GET" "time_entries" none =
      .error (.badBaseURL (URL.render
        (Client.mk ⟨"https", "api.harvestapp.com", "", ""⟩ "t" "a" "go-harvest").BaseURL)) :=
  ⟨by decide,
   newRequest_no_trailing_slash_fails
     (Client.mk ⟨"https", "api.harvestapp.com", "", ""⟩ "t" "a" "go-harvest")
     "GET" "time_entries" none (by decide)⟩

/-- C9: whenever `CheckResponse` rejects the transport's response, `Do`
returns the non-nil response wrapper together with the error, and
`TimeEntriesService.List` propagates that same wrapper to the caller next
to the error (with a nil entries slice). -/
theorem api_error_returns_wrapper (c : Client) (tok acc : String) (ctx : Ctx)
    (opts : Option TimeEntriesListOptions) {α : Type} (v : Dest α) (req : HttpRequest)
    (resp : HttpResponse) (e : HarvestError) (h : CheckResponse resp = some e) :
    Client.Do c (some ctx) (fun _ => .ok resp) req v =
      ⟨some (newResponse resp), some (.api e), none⟩ ∧
    TimeEntriesService.List ⟨NewClient tok acc⟩ (fun _ => .ok resp) (some ctx) opts =
      ⟨none, some (newResponse resp), some (.fromDo (.api e))⟩ := by
  refine ⟨do_api_error c ctx v req resp e h, ?_⟩
  obtain ⟨req', hreq⟩ := newRequest_ofNewClient_isOk tok acc "GET"
    (addOptions "time_entries" opts) none
  simp [TimeEntriesService.List, hreq, do_api_error _ _ _ _ _ _ h]

/-- Witness for C9 at a concrete 404 response. -/
theorem api_error_returns_wrapper_witness :
    CheckResponse resp404 =
      some (HarvestError.generic ⟨resp404, "invalid_grant", "The token is invalid"⟩) ∧
    (Client.Do (NewClient "t" "a") (some ⟨false, .contextCanceled⟩)
        (fun _ => .ok resp404) sampleRequest (Dest.nil (α := Page)) =
      ⟨some (newResponse resp404),
       some (.api (HarvestError.generic ⟨resp404, "invalid_grant", "The token is invalid"⟩)),
       none⟩ ∧
     TimeEntriesService.List ⟨NewClient "t" "a"⟩ (fun _ => .ok resp404)
        (some ⟨false, .contextCanceled⟩) none =
      ⟨none, some (newResponse resp404),
       some (.fromDo (.api (HarvestError.generic
         ⟨resp404, "invalid_grant", "The token is invalid"⟩)))⟩) :=
  ⟨rfl,
   api_error_returns_wrapper (NewClient "t" "a") "t" "a" ⟨false, .contextCanceled⟩ none
     (Dest.nil (α := Page)) sampleRequest resp404
     (HarvestError.generic ⟨resp404, "invalid_grant", "The token is invalid"⟩) rfl⟩

/-- C10: every client built by `NewClient` has the parsed default base URL
`https://api.harvestapp.com/`, whose path ends in a slash, so `NewRequest`
never takes the trailing-slash error branch for such a client. -/
theorem newClient_baseURL_trailing_slash (tok acc method urlStr : String)
    (body : Option Json) :
    (NewClient tok acc).BaseURL = parsedDefaultBaseURL ∧
    URL.render (NewClient tok acc).BaseURL = defaultBaseURL ∧
    strHasSuffix (NewClient tok acc).BaseURL.path "/" = true ∧
    ∃ req, (NewClient tok acc).NewRequest method urlStr body = .ok req :=
  ⟨rfl, rfl, rfl, newRequest_ofNewClient_isOk tok acc method urlStr body⟩

end harvest
